import Mathlib

/-
Verification of the wikipedia president chatbot (src/a10.py).

The pure text-processing core (clean_text, the birth-date regex, the
pattern-action dispatch) is embedded directly; the network and HTML-parsing
collaborators (wikipedia.search, WikipediaPage(...).html(), BeautifulSoup)
are abstracted as an environment of oracle functions, and fallible Python
code is embedded with Except over an explicit Python-error type.
-/

/-- Characters of Python's `string.printable`: the visible ASCII range
32..126 together with the whitespace characters tab, newline, carriage
return, vertical tab and form feed. -/
def printable (c : Char) : Bool :=
  (32 ≤ c.toNat && c.toNat ≤ 126) ||
    ['\t', '\n', '\r', Char.ofNat 11, Char.ofNat 12].contains c

/-- One character of the list comprehension in clean_text:
`char if char in string.printable else " "`. -/
def replace_char (c : Char) : Char :=
  if printable c then c else ' '

/-- Semantics of `re.sub(t+, t, ·)` for a single character t: every maximal
run of t is replaced by one t.  Each character equal to t that is directly
followed by another t is dropped, so one character (the last) of each run
remains. -/
def collapse_runs (t : Char) : List Char → List Char
  | c :: d :: rest =>
    if c = t ∧ d = t then collapse_runs t (d :: rest)
    else c :: collapse_runs t (d :: rest)
  | l => l

/-- Embedding of clean_text from src/a10.py: replace non-printable
characters by spaces, collapse space runs, then collapse newline runs. -/
def clean_text (text : String) : String :=
  ⟨collapse_runs '\n' (collapse_runs ' ' (text.data.map replace_char))⟩

/-- Run collapsing as the spec words it, keeping the first character of
each run: a character equal to t is dropped when the previously kept
character was already t.  Used as the independent formulation that
clean_text is compared against. -/
def collapse_keep_first (t : Char) (prev : Option Char) : List Char → List Char
  | [] => []
  | c :: rest =>
    if prev = some t ∧ c = t then collapse_keep_first t (some c) rest
    else c :: collapse_keep_first t (some c) rest

/-- Spec-side restatement of the cleaning pipeline, built from
collapse_keep_first instead of collapse_runs. -/
def spec_clean_text (text : String) : String :=
  ⟨collapse_keep_first '\n' none
    (collapse_keep_first ' ' none (text.data.map replace_char))⟩

/-- Boolean predicate: the list has no two adjacent occurrences of t. -/
def no_dup_adj (t : Char) : List Char → Bool
  | c :: d :: rest => !(c == t && d == t) && no_dup_adj t (d :: rest)
  | _ => true

/-- Joining the tokens bound by one wildcard back into a single string,
as the handlers receive them. -/
def join_tokens (ts : List String) : String := String.intercalate " " ts

/-- Modelled from the spec: the `match` function imported from the
repository's `match` module, whose source file is not included.  Per spec
section 4.1: matching proceeds left to right, a non-wildcard template token
must equal the corresponding input token exactly; the wildcard token "%"
stands for one or more words, is greedy, but must still allow the
template's trailing literal tokens (if any) to match; the result binds each
wildcard to the contiguous subsequence of input tokens it consumed, and is
none when lengths or literal tokens disagree. -/
def match_tokens : List String → List String → Option (List (List String))
  | [], src => if src.isEmpty then some [] else none
  | p :: ps, src =>
    if p = "%" then
      ((List.range src.length).map (fun i => src.length - i)).findSome?
        (fun k => (match_tokens ps (src.drop k)).map (fun rest => src.take k :: rest))
    else
      match src with
      | [] => none
      | s :: ss => if p = s then match_tokens ps ss else none

/-- Identifier for the six handler functions of pa_list. -/
inductive QAction where
  | name
  | term
  | party
  | birth
  | predecessor
  | successor
deriving DecidableEq

/-- Embedding of pa_list from src/a10.py: the six templates, already
split on whitespace, each paired with its handler identifier, in
declaration order. -/
def pa_list : List (List String × QAction) :=
  [(["who", "is", "the", "president", "of", "%"], QAction.name),
   (["what", "is", "the", "term", "of", "the", "president", "of", "%"], QAction.term),
   (["what", "is", "the", "political", "party", "of", "the", "president", "of", "%"],
     QAction.party),
   (["when", "was", "the", "president", "of", "%", "born"], QAction.birth),
   (["who", "was", "the", "predecessor", "of", "the", "president", "of", "%"],
     QAction.predecessor),
   (["who", "is", "the", "successor", "of", "the", "president", "of", "%"],
     QAction.successor)]

/-- The loop body of search_pa_list over a remaining pattern-action list,
with the handlers abstracted as a pure function from action identifier and
wildcard bindings to an answer list. -/
def search_pa_go (act : QAction → List String → List String) (src : List String) :
    List (List String × QAction) → List String
  | [] => ["I don't understand"]
  | (pat, a) :: rest =>
    match match_tokens pat src with
    | some mat =>
      let answer := act a (mat.map join_tokens)
      if answer = [] then ["No answers"] else answer
    | none => search_pa_go act src rest

/-- Embedding of search_pa_list from src/a10.py: try the templates of
pa_list in order; on the first match call its handler, replacing an empty
answer list by the fixed No-answers response; with no match at all return
the fixed I-don't-understand response. -/
def search_pa_list (act : QAction → List String → List String)
    (src : List String) : List String :=
  search_pa_go act src pa_list

/-- Python exception kinds raised along the extraction pipeline. -/
inductive PyError where
  | indexError : PyError
  | lookupError : String → PyError
  | attributeError : String → PyError
deriving DecidableEq

/-- An HTML element as far as the infobox scan observes it: its class
attribute values and its text content. -/
structure Element where
  classes : List String
  text : String
deriving DecidableEq

/-- Flags handed to re.compile. -/
structure RegexFlags where
  dotall : Bool
  ignorecase : Bool
deriving DecidableEq

/-- Environment of external collaborators: wikipedia.search,
WikipediaPage(title).html(), BeautifulSoup parsing, and a regex-search
oracle taking pattern, compile flags and text to the captured group of the
first match (none when the pattern matches nowhere). -/
structure WikiEnv where
  search : String → List String
  page_html : String → String
  parse : String → List Element
  research : String → RegexFlags → String → Option String

/-- Embedding of get_page_html from src/a10.py: search for the title and
render the first result; indexing results[0] on an empty search result
list raises IndexError. -/
def get_page_html (env : WikiEnv) (title : String) : Except PyError String :=
  match env.search title with
  | [] => Except.error PyError.indexError
  | r :: _ => Except.ok (env.page_html r)

/-- Embedding of get_first_infobox_text from src/a10.py: collect the
elements whose class attribute contains "infobox"; raise
LookupError "Page has no infobox" when there are none, otherwise return
the text of the first. -/
def get_first_infobox_text (page : List Element) : Except PyError String :=
  match page.filter (fun e => e.classes.contains "infobox") with
  | [] => Except.error (PyError.lookupError "Page has no infobox")
  | e :: _ => Except.ok e.text

/-- The flag value DOTALL | IGNORECASE that get_match always compiles
with. -/
def compiled_flags : RegexFlags := ⟨true, true⟩

/-- Embedding of get_match from src/a10.py: search the text with the
pattern compiled under DOTALL | IGNORECASE; raise
AttributeError error_text when it matches nowhere, else return the
match (represented by its captured group). -/
def get_match (env : WikiEnv) (text pattern error_text : String) :
    Except PyError String :=
  match env.research pattern compiled_flags text with
  | none => Except.error (PyError.attributeError error_text)
  | some m => Except.ok m

/-- Regex pattern of get_president_name. -/
def name_pattern : String := "(?:President)(?:.*?)(?P<president>[\\w\\s]+)(?:.*?)"

/-- Regex pattern of get_president_term. -/
def term_pattern : String := "(?:Term\\s*of\\s*office\\s*).*?(\\d{4}-\\d{4})"

/-- Regex pattern of get_president_party. -/
def party_pattern : String := "(?:Political\\s*party\\s*).*?([\\w\\s]+)"

/-- Regex pattern of get_president_birth. -/
def birth_pattern : String := "(?:Born\\D*)(?P<birth>\\d{4}-\\d{2}-\\d{2})"

/-- Regex pattern of get_president_predecessor. -/
def predecessor_pattern : String := "(?:Predecessor\\s*).*?([\\w\\s]+)"

/-- Regex pattern of get_president_successor. -/
def successor_pattern : String := "(?:Successor\\s*).*?([\\w\\s]+)"

/-- Error text of the birth extractor. -/
def birth_error_text : String :=
  "Page infobox has no birth information (at least none in xxxx-xx-xx format)"

/-- Case-insensitive character comparison, as re.IGNORECASE performs on
ASCII letters. -/
def ci_eq (a b : Char) : Bool := a.toLower == b.toLower

/-- Attempt of the subpattern \d4-\d2-\d2 at the head of the list,
returning the ten captured characters. -/
def date_at : List Char → Option (List Char)
  | a :: b :: c :: d :: e :: f :: g :: h :: i :: j :: _ =>
    if a.isDigit && b.isDigit && c.isDigit && d.isDigit && e == '-' &&
        f.isDigit && g.isDigit && h == '-' && i.isDigit && j.isDigit
    then some [a, b, c, d, e, f, g, h, i, j] else none
  | _ => none

/-- Attempt of the full birth pattern anchored at the head of the list:
the letters b, o, r, n case-insensitively, then \D* (which, being greedy
over non-digits followed by a mandatory digit, always consumes exactly the
maximal run of non-digits), then the date subpattern. -/
def match_born_at : List Char → Option (List Char)
  | c1 :: c2 :: c3 :: c4 :: rest =>
    if ci_eq c1 'b' && ci_eq c2 'o' && ci_eq c3 'r' && ci_eq c4 'n'
    then date_at (rest.dropWhile (fun c => !c.isDigit))
    else none
  | _ => none

/-- Semantics of re.search for the fixed birth pattern under
DOTALL | IGNORECASE (DOTALL is inert: the pattern has no dot): try each
start position from the left, returning the first capture. -/
def search_born : List Char → Option (List Char)
  | [] => none
  | c :: rest =>
    match match_born_at (c :: rest) with
    | some d => some d
    | none => search_born rest

/-- The regex-and-error step of get_president_birth on an already cleaned
infobox text: get_match inlined at the fixed birth pattern, whose search
semantics is concrete. -/
def extract_birth (text : String) : Except PyError String :=
  match search_born text.data with
  | some d => Except.ok (String.mk d)
  | none => Except.error (PyError.attributeError birth_error_text)

/-- Embedding of get_president_name from src/a10.py: fetch the page,
take the first infobox text, clean it, then regex-extract the president
group. -/
def get_president_name (env : WikiEnv) (country_name : String) :
    Except PyError String := do
  let html ← get_page_html env country_name
  let infobox_text ← get_first_infobox_text (env.parse html)
  get_match env (clean_text infobox_text) name_pattern
    "Page infobox has no president information"

/-- Embedding of get_president_term from src/a10.py. -/
def get_president_term (env : WikiEnv) (country_name : String) :
    Except PyError String := do
  let html ← get_page_html env country_name
  let infobox_text ← get_first_infobox_text (env.parse html)
  get_match env (clean_text infobox_text) term_pattern
    "Page infobox has no term information"

/-- Embedding of get_president_party from src/a10.py. -/
def get_president_party (env : WikiEnv) (country_name : String) :
    Except PyError String := do
  let html ← get_page_html env country_name
  let infobox_text ← get_first_infobox_text (env.parse html)
  get_match env (clean_text infobox_text) party_pattern
    "Page infobox has no political party information"

/-- Embedding of get_president_birth from src/a10.py, with get_match
instantiated at the concrete semantics of the birth pattern. -/
def get_president_birth (env : WikiEnv) (country_name : String) :
    Except PyError String := do
  let html ← get_page_html env country_name
  let infobox_text ← get_first_infobox_text (env.parse html)
  extract_birth (clean_text infobox_text)

/-- Embedding of get_president_predecessor from src/a10.py. -/
def get_president_predecessor (env : WikiEnv) (country_name : String) :
    Except PyError String := do
  let html ← get_page_html env country_name
  let infobox_text ← get_first_infobox_text (env.parse html)
  get_match env (clean_text infobox_text) predecessor_pattern
    "Page infobox has no predecessor information"

/-- Embedding of get_president_successor from src/a10.py. -/
def get_president_successor (env : WikiEnv) (country_name : String) :
    Except PyError String := do
  let html ← get_page_html env country_name
  let infobox_text ← get_first_infobox_text (env.parse html)
  get_match env (clean_text infobox_text) successor_pattern
    "Page infobox has no successor information"

/-- Python list indexing l[n], raising IndexError out of range. -/
def py_get (l : List String) (n : Nat) : Except PyError String :=
  match l.get? n with
  | some x => Except.ok x
  | none => Except.error PyError.indexError

/-- Embedding of the handler president_name from src/a10.py:
return [get_president_name(matches[0])]. -/
def president_name (env : WikiEnv) (ms : List String) :
    Except PyError (List String) := do
  let c ← py_get ms 0
  let s ← get_president_name env c
  pure [s]

/-- Embedding of the handler president_term from src/a10.py. -/
def president_term (env : WikiEnv) (ms : List String) :
    Except PyError (List String) := do
  let c ← py_get ms 0
  let s ← get_president_term env c
  pure [s]

/-- Embedding of the handler president_party from src/a10.py. -/
def president_party (env : WikiEnv) (ms : List String) :
    Except PyError (List String) := do
  let c ← py_get ms 0
  let s ← get_president_party env c
  pure [s]

/-- Embedding of the handler president_birth from src/a10.py. -/
def president_birth (env : WikiEnv) (ms : List String) :
    Except PyError (List String) := do
  let c ← py_get ms 0
  let s ← get_president_birth env c
  pure [s]

/-- Embedding of the handler president_predecessor from src/a10.py. -/
def president_predecessor (env : WikiEnv) (ms : List String) :
    Except PyError (List String) := do
  let c ← py_get ms 0
  let s ← get_president_predecessor env c
  pure [s]

/-- Embedding of the handler president_successor from src/a10.py. -/
def president_successor (env : WikiEnv) (ms : List String) :
    Except PyError (List String) := do
  let c ← py_get ms 0
  let s ← get_president_successor env c
  pure [s]

/-- Dispatch from a handler identifier to its handler. -/
def run_action (env : WikiEnv) : QAction → List String → Except PyError (List String)
  | QAction.name, m => president_name env m
  | QAction.term, m => president_term env m
  | QAction.party, m => president_party env m
  | QAction.birth, m => president_birth env m
  | QAction.predecessor, m => president_predecessor env m
  | QAction.successor, m => president_successor env m

/-- Helper: does the first list stand at the head of the second. -/
def starts_with_l : List Char → List Char → Bool
  | [], _ => true
  | _ :: _, [] => false
  | p :: ps, c :: cs => p == c && starts_with_l ps cs

/-- Helper: does the first list occur contiguously inside the second. -/
def occurs_in (pat l : List Char) : Bool := l.tails.any (starts_with_l pat)

/-- Boolean test for the letters b, o, r, n case-insensitively at the
head of the list. -/
def born_at : List Char → Bool
  | c1 :: c2 :: c3 :: c4 :: _ =>
    ci_eq c1 'b' && ci_eq c2 'o' && ci_eq c3 'r' && ci_eq c4 'n'
  | _ => false

/-- Boolean test: somewhere in the list, the word born (case-insensitive)
with a YYYY-MM-DD-shaped date at some position after it. -/
def has_born_date (l : List Char) : Bool :=
  l.tails.any (fun t => born_at t && (t.drop 4).tails.any (fun u => (date_at u).isSome))

/-- Concrete environment used to instantiate theorems with hypotheses:
one search hit, a one-element page whose element is an infobox, and a
regex oracle that always captures the same group. -/
def env_example : WikiEnv :=
  ⟨fun _ => ["France"], fun _ => "page", fun _ => [⟨["infobox"], "President Macron"⟩],
    fun _ _ _ => some "Macron"⟩

/-- Concrete environment whose search finds nothing. -/
def env_no_results : WikiEnv :=
  ⟨fun _ => [], fun _ => "page", fun _ => [], fun _ _ _ => none⟩

lemma collapse_runs_cons (t : Char) (rest : List Char) :
    ∀ d : Char, ∃ l', collapse_runs t (d :: rest) = d :: l' := by
  induction rest with
  | nil => intro d; exact ⟨[], by simp [collapse_runs]⟩
  | cons e r ih =>
    intro d
    by_cases h : d = t ∧ e = t
    · obtain ⟨l', he⟩ := ih e
      refine ⟨l', ?_⟩
      rw [collapse_runs, if_pos h, he, h.1, h.2]
    · exact ⟨collapse_runs t (e :: r), by rw [collapse_runs, if_neg h]⟩

lemma collapse_runs_cons_ne (t c : Char) (r : List Char) (h : c ≠ t) :
    collapse_runs t (c :: r) = c :: collapse_runs t r := by
  cases r with
  | nil => simp [collapse_runs]
  | cons d r' =>
    rw [collapse_runs, if_neg]
    rintro ⟨h1, _⟩
    exact h h1

lemma no_dup_adj_cons_cons (t c d : Char) (r : List Char) :
    no_dup_adj t (c :: d :: r) = (!(c == t && d == t) && no_dup_adj t (d :: r)) := by
  rw [no_dup_adj]

lemma no_dup_adj_collapse_self (t : Char) (l : List Char) :
    no_dup_adj t (collapse_runs t l) = true := by
  induction l with
  | nil => simp [collapse_runs, no_dup_adj]
  | cons c rest ih =>
    cases rest with
    | nil => simp [collapse_runs, no_dup_adj]
    | cons d r =>
      by_cases h : c = t ∧ d = t
      · rw [collapse_runs, if_pos h]
        exact ih
      · rw [collapse_runs, if_neg h]
        obtain ⟨l', he⟩ := collapse_runs_cons t r d
        rw [he, no_dup_adj_cons_cons, ← he, Bool.and_eq_true]
        refine ⟨?_, ih⟩
        simp only [Bool.not_eq_true', Bool.and_eq_false_iff, beq_eq_false_iff_ne, ne_eq]
        by_cases hc : c = t
        · exact Or.inr (fun hd => h ⟨hc, hd⟩)
        · exact Or.inl hc

lemma no_dup_adj_collapse (t u : Char) (l : List Char)
    (h : no_dup_adj t l = true) : no_dup_adj t (collapse_runs u l) = true := by
  induction l with
  | nil => simpa [collapse_runs] using h
  | cons c rest ih =>
    cases rest with
    | nil => simpa [collapse_runs] using h
    | cons d r =>
      rw [no_dup_adj_cons_cons, Bool.and_eq_true] at h
      by_cases hcd : c = u ∧ d = u
      · rw [collapse_runs, if_pos hcd]
        exact ih h.2
      · rw [collapse_runs, if_neg hcd]
        obtain ⟨l', he⟩ := collapse_runs_cons u r d
        rw [he, no_dup_adj_cons_cons, ← he, Bool.and_eq_true]
        exact ⟨h.1, ih h.2⟩

lemma collapse_runs_of_no_dup (t : Char) (l : List Char)
    (h : no_dup_adj t l = true) : collapse_runs t l = l := by
  induction l with
  | nil => simp [collapse_runs]
  | cons c rest ih =>
    cases rest with
    | nil => simp [collapse_runs]
    | cons d r =>
      rw [no_dup_adj_cons_cons, Bool.and_eq_true] at h
      rw [collapse_runs, if_neg, ih h.2]
      have h1 := h.1
      simp only [Bool.not_eq_true', Bool.and_eq_false_iff, beq_eq_false_iff_ne, ne_eq] at h1
      rintro ⟨hc, hd⟩
      rcases h1 with h1 | h1
      · exact h1 hc
      · exact h1 hd

lemma mem_collapse_runs (t : Char) (l : List Char) (c : Char)
    (h : c ∈ collapse_runs t l) : c ∈ l := by
  induction l with
  | nil => simp [collapse_runs] at h
  | cons c0 rest ih =>
    cases rest with
    | nil => simpa [collapse_runs] using h
    | cons d r =>
      by_cases hcd : c0 = t ∧ d = t
      · rw [collapse_runs, if_pos hcd] at h
        exact List.mem_cons_of_mem c0 (ih h)
      · rw [collapse_runs, if_neg hcd] at h
        rcases List.mem_cons.mp h with h | h
        · exact h ▸ List.mem_cons_self c0 (d :: r)
        · exact List.mem_cons_of_mem c0 (ih h)

lemma printable_of_mem_map (l : List Char) (c : Char)
    (h : c ∈ l.map replace_char) : printable c = true := by
  rcases List.mem_map.mp h with ⟨x, _, rfl⟩
  unfold replace_char
  by_cases hx : printable x = true
  · simp [hx]
  · rw [if_neg hx]
    decide

lemma map_replace_of_printable (l : List Char)
    (h : ∀ c ∈ l, printable c = true) : l.map replace_char = l := by
  induction l with
  | nil => rfl
  | cons c rest ih =>
    simp only [List.map_cons, List.cons.injEq]
    refine ⟨?_, ih (fun x hx => h x (List.mem_cons_of_mem c hx))⟩
    unfold replace_char
    rw [if_pos (h c (List.mem_cons_self c rest))]

lemma printable_ascii (c : Char) (h : printable c = true) : c.toNat < 128 := by
  unfold printable at h
  rw [Bool.or_eq_true, Bool.and_eq_true] at h
  rcases h with ⟨_, h2⟩ | h2
  · have h3 : c.toNat ≤ 126 := of_decide_eq_true h2
    omega
  · have h3 : c ∈ ['\t', '\n', '\r', Char.ofNat 11, Char.ofNat 12] := by
      simpa using h2
    fin_cases h3 <;> decide

lemma clean_text_data (s : String) :
    (clean_text s).data =
      collapse_runs '\n' (collapse_runs ' ' (s.data.map replace_char)) := rfl

lemma clean_text_printable (s : String) :
    ∀ c ∈ (clean_text s).data, printable c = true := by
  intro c hc
  rw [clean_text_data] at hc
  exact printable_of_mem_map _ c (mem_collapse_runs _ _ c (mem_collapse_runs _ _ c hc))

lemma clean_text_no_dup_space (s : String) :
    no_dup_adj ' ' (clean_text s).data = true := by
  rw [clean_text_data]
  exact no_dup_adj_collapse ' ' '\n' _ (no_dup_adj_collapse_self ' ' _)

lemma clean_text_no_dup_newline (s : String) :
    no_dup_adj '\n' (clean_text s).data = true := by
  rw [clean_text_data]
  exact no_dup_adj_collapse_self '\n' _

/-- C10: clean_text is idempotent: cleaning an already cleaned string
changes nothing, since a cleaned string consists only of printable
characters and has no duplicated space or newline left to collapse. -/
theorem clean_text_idempotent (s : String) :
    clean_text (clean_text s) = clean_text s := by
  have hmap : (clean_text s).data.map replace_char = (clean_text s).data :=
    map_replace_of_printable _ (clean_text_printable s)
  have hsp : collapse_runs ' ' (clean_text s).data = (clean_text s).data :=
    collapse_runs_of_no_dup ' ' _ (clean_text_no_dup_space s)
  have hnl : collapse_runs '\n' (clean_text s).data = (clean_text s).data :=
    collapse_runs_of_no_dup '\n' _ (clean_text_no_dup_newline s)
  show String.mk _ = clean_text s
  rw [hmap, hsp, hnl]

/-- C4: the Infobox Text invariant: every character of a cleaned text is
ASCII, and the cleaned text has no two consecutive spaces and no two
consecutive newlines. -/
theorem clean_text_invariant (s : String) :
    (∀ c ∈ (clean_text s).data, c.toNat < 128) ∧
      no_dup_adj ' ' (clean_text s).data = true ∧
      no_dup_adj '\n' (clean_text s).data = true :=
  ⟨fun c hc => printable_ascii c (clean_text_printable s c hc),
   clean_text_no_dup_space s, clean_text_no_dup_newline s⟩

lemma collapse_keep_first_eq (t : Char) (l : List Char) :
    (∀ p : Option Char, p ≠ some t → collapse_keep_first t p l = collapse_runs t l) ∧
      collapse_keep_first t (some t) l = (collapse_runs t (t :: l)).tail := by
  induction l with
  | nil =>
    refine ⟨fun p _ => by simp [collapse_keep_first, collapse_runs], ?_⟩
    simp [collapse_keep_first, collapse_runs]
  | cons c r ih =>
    constructor
    · intro p hp
      rw [collapse_keep_first, if_neg (fun hcl => hp hcl.1)]
      by_cases hc : c = t
      · subst hc
        rw [ih.2]
        obtain ⟨l', he⟩ := collapse_runs_cons c r c
        rw [he, List.tail_cons, ← he]
      · rw [ih.1 (some c) (fun hsc => hc (Option.some.injEq c t ▸ hsc.symm ▸ rfl)),
          collapse_runs_cons_ne t c r hc]
    · by_cases hc : c = t
      · subst hc
        rw [collapse_keep_first, if_pos ⟨rfl, rfl⟩, ih.2]
        have : collapse_runs c (c :: c :: r) = collapse_runs c (c :: r) := by
          rw [collapse_runs, if_pos ⟨rfl, rfl⟩]
        rw [this]
      · rw [collapse_keep_first, if_neg (fun hcl => hc hcl.2),
          ih.1 (some c) (fun hsc => hc (by injection hsc)),
          ← collapse_runs_cons_ne t c r hc]
        have : collapse_runs t (t :: c :: r) = t :: collapse_runs t (c :: r) := by
          rw [collapse_runs, if_neg (fun hcl => hc hcl.2)]
        rw [this, List.tail_cons]

/-- C3: clean_text implements the spec's description of cleaning — replace
each non-printable character by a space, collapse space runs, collapse
newline runs (restated independently by spec_clean_text, which keeps the
first rather than the last character of each run) — and on the concrete
input a, four spaces with a non-ASCII character among them, b, three
newlines, c, it yields "a b\nc", the non-ASCII character being replaced by
a space and collapsed into the run. -/
theorem clean_text_spec (s : String) :
    clean_text s = spec_clean_text s ∧ clean_text "a  é  b\n\n\nc" = "a b\nc" := by
  constructor
  · show clean_text s = String.mk _
    rw [(collapse_keep_first_eq ' ' (s.data.map replace_char)).1 none (by simp),
      (collapse_keep_first_eq '\n' _).1 none (by simp)]
    rfl
  · decide

lemma match_tokens_wild (src : List String) :
    match_tokens ["%"] src = if src = [] then none else some [src] := by
  cases src with
  | nil => simp [match_tokens]
  | cons s ss =>
    rw [match_tokens, if_pos rfl]
    have hlen : (s :: ss).length = ss.length + 1 := rfl
    rw [hlen, List.range_succ_eq_map, List.map_cons, List.findSome?_cons]
    have h1 : (s :: ss).drop (ss.length + 1 - 0) = [] := by
      rw [Nat.sub_zero, ← hlen, List.drop_length]
    have h2 : (s :: ss).take (ss.length + 1 - 0) = s :: ss := by
      rw [Nat.sub_zero, ← hlen, List.take_length]
    rw [h1, h2]
    simp [match_tokens]

lemma match_tokens_cons_nil (p : String) (ps : List String) (hp : p ≠ "%") :
    match_tokens (p :: ps) [] = none := by
  rw [match_tokens.eq_def]
  simp only [if_neg hp]

lemma match_tokens_cons_cons (p s : String) (ps ss : List String) (hp : p ≠ "%") :
    match_tokens (p :: ps) (s :: ss) = if p = s then match_tokens ps ss else none := by
  rw [match_tokens.eq_def]
  simp only [if_neg hp]

/-- C1 (amended): for a template whose single wildcard is its final token,
match returns the nonempty remainder of the input past the literals
exactly when every literal equals the corresponding input token and at
least one input token remains for the wildcard; it returns none when a
literal disagrees or the input is too short for the template shape. -/
theorem match_final_wildcard (lits S : List String) (hw : "%" ∉ lits) :
    (S.take lits.length = lits ∧ lits.length < S.length →
      match_tokens (lits ++ ["%"]) S = some [S.drop lits.length]) ∧
    (¬(S.take lits.length = lits) ∨ S.length ≤ lits.length →
      match_tokens (lits ++ ["%"]) S = none) := by
  induction lits generalizing S with
  | nil =>
    simp only [List.nil_append, List.length_nil, List.take_zero, List.drop_zero,
      match_tokens_wild]
    constructor
    · rintro ⟨-, hlen⟩
      rw [if_neg (fun h => by simp [h] at hlen)]
    · rintro (h | h)
      · exact absurd trivial h
      · have : S = [] := List.eq_nil_of_length_eq_zero (Nat.le_zero.mp h)
        rw [if_pos this]
  | cons p lits ih =>
    have hp : p ≠ "%" := fun h => hw (h ▸ List.mem_cons_self p lits)
    have hw' : "%" ∉ lits := fun h => hw (List.mem_cons_of_mem p h)
    cases S with
    | nil =>
      rw [List.cons_append, match_tokens_cons_nil p _ hp]
      constructor
      · rintro ⟨-, hlen⟩
        exact absurd hlen (by simp)
      · intro _
        rfl
    | cons s ss =>
      rw [List.cons_append, match_tokens_cons_cons p s _ ss hp]
      by_cases hps : p = s
      · subst hps
        rw [if_pos rfl]
        constructor
        · rintro ⟨htake, hlen⟩
          simp only [List.length_cons, List.take_succ_cons, List.cons.injEq] at htake hlen ⊢
          rw [List.drop_succ_cons]
          exact (ih ss hw').1 ⟨htake.2, Nat.lt_of_succ_lt_succ hlen⟩
        · rintro (htake | hlen)
          · simp only [List.length_cons, List.take_succ_cons, List.cons.injEq,
              not_and, true_implies] at htake
            exact (ih ss hw').2 (Or.inl htake)
          · simp only [List.length_cons] at hlen
            exact (ih ss hw').2 (Or.inr (Nat.le_of_succ_le_succ hlen))
      · rw [if_neg hps]
        constructor
        · rintro ⟨htake, -⟩
          simp only [List.length_cons, List.take_succ_cons, List.cons.injEq] at htake
          exact absurd htake.1.symm hps
        · intro _
          rfl

/-- C1 (counterexample to the claim as stated): the fourth template of
pa_list contains the wildcard, yet its final token is the literal born,
so the repository's templates do not always place the wildcard last. -/
theorem match_final_wildcard_counterexample :
    (pa_list.map (fun pa => pa.1)).get? 3 =
        some ["when", "was", "the", "president", "of", "%", "born"] ∧
      ["when", "was", "the", "president", "of", "%", "born"].getLast? ≠ some "%" ∧
      "%" ∈ ["when", "was", "the", "president", "of", "%", "born"] := by
  refine ⟨rfl, ?_, by simp⟩
  simp [List.getLast?]

/-- C1 (witness): the name template's literals against the query
who is the president of france: the wildcard captures france. -/
theorem match_final_wildcard_witness :
    match_tokens (["who", "is", "the", "president", "of"] ++ ["%"])
        ["who", "is", "the", "president", "of", "france"] = some [["france"]] :=
  (match_final_wildcard ["who", "is", "the", "president", "of"]
      ["who", "is", "the", "president", "of", "france"] (by decide)).1
    ⟨by decide, by decide⟩

lemma search_pa_go_none (act : QAction → List String → List String)
    (src : List String) :
    ∀ l : List (List String × QAction),
      (∀ pa ∈ l, match_tokens pa.1 src = none) →
        search_pa_go act src l = ["I don't understand"] := by
  intro l h
  induction l with
  | nil => rfl
  | cons pa rest ih =>
    obtain ⟨pat, a⟩ := pa
    rw [search_pa_go, h (pat, a) (List.mem_cons_self _ _)]
    exact ih (fun x hx => h x (List.mem_cons_of_mem _ hx))

lemma search_pa_go_at (act : QAction → List String → List String)
    (src : List String) :
    ∀ (l : List (List String × QAction)) (i : Nat) (hi : i < l.length)
      (m : List (List String)),
      (∀ (j : Nat) (hj : j < i), match_tokens (l.get ⟨j, Nat.lt_trans hj hi⟩).1 src = none) →
      match_tokens (l.get ⟨i, hi⟩).1 src = some m →
      search_pa_go act src l =
        (if act (l.get ⟨i, hi⟩).2 (m.map join_tokens) = [] then ["No answers"]
         else act (l.get ⟨i, hi⟩).2 (m.map join_tokens)) := by
  intro l
  induction l with
  | nil =>
    intro i hi
    exact absurd hi (Nat.not_lt_zero i)
  | cons pa rest ih =>
    obtain ⟨pat, a⟩ := pa
    intro i hi m hfirst hm
    cases i with
    | zero =>
      have hm' : match_tokens pat src = some m := hm
      rw [search_pa_go, hm']
      rfl
    | succ i' =>
      have h0 : match_tokens pat src = none := hfirst 0 (Nat.succ_pos i')
      rw [search_pa_go, h0]
      have hm' : match_tokens (rest.get ⟨i', Nat.lt_of_succ_lt_succ hi⟩).1 src = some m := hm
      exact ih i' (Nat.lt_of_succ_lt_succ hi) m
        (fun j hj => hfirst (j + 1) (Nat.succ_lt_succ hj)) hm'

/-- C2: search_pa_list has six templates, tries them in declaration order
so that the handler of the first matching template produces the answer
(an empty handler answer being replaced as the code writes it), and with
no matching template returns exactly the one-element list
I-don't-understand. -/
theorem search_pa_list_dispatch (act : QAction → List String → List String)
    (src : List String) :
    pa_list.length = 6 ∧
    ((∀ pa ∈ pa_list, match_tokens pa.1 src = none) →
      search_pa_list act src = ["I don't understand"]) ∧
    (∀ (i : Nat) (hi : i < pa_list.length) (m : List (List String)),
      (∀ (j : Nat) (hj : j < i),
        match_tokens (pa_list.get ⟨j, Nat.lt_trans hj hi⟩).1 src = none) →
      match_tokens (pa_list.get ⟨i, hi⟩).1 src = some m →
      search_pa_list act src =
        (if act (pa_list.get ⟨i, hi⟩).2 (m.map join_tokens) = [] then ["No answers"]
         else act (pa_list.get ⟨i, hi⟩).2 (m.map join_tokens))) :=
  ⟨rfl, search_pa_go_none act src pa_list,
   fun i hi m hfirst hm => search_pa_go_at act src pa_list i hi m hfirst hm⟩

/-- C2 (witness): the query who is the president of france dispatches to
the first template's handler with the wildcard bound to france, and a
query matching no template yields I don't understand. -/
theorem search_pa_list_dispatch_witness :
    search_pa_list (fun _ m => m) ["who", "is", "the", "president", "of", "france"] =
        ["france"] ∧
      search_pa_list (fun _ m => m) ["hello"] = ["I don't understand"] := by
  constructor
  · have h := (search_pa_list_dispatch (fun _ m => m)
        ["who", "is", "the", "president", "of", "france"]).2.2 0 (by decide)
        [["france"]] (fun j hj => absurd hj (Nat.not_lt_zero j)) (by decide)
    exact h.trans (by decide)
  · exact (search_pa_list_dispatch (fun _ m => m) ["hello"]).2.1 (by decide)

lemma except_two_step (x : Except PyError String)
    (f : String → Except PyError String) :
    (∃ e, (x.bind fun c => (f c).bind fun s => Except.ok [s]) = Except.error e) ∨
      (∃ s, (x.bind fun c => (f c).bind fun s => Except.ok [s]) = Except.ok [s]) := by
  cases x with
  | error e => exact Or.inl ⟨e, rfl⟩
  | ok c =>
    cases hf : f c with
    | error e =>
      refine Or.inl ⟨e, ?_⟩
      show (f c).bind _ = _
      rw [hf]
      rfl
    | ok s =>
      refine Or.inr ⟨s, ?_⟩
      show (f c).bind _ = _
      rw [hf]
      rfl

lemma run_action_shape (env : WikiEnv) (a : QAction) (ms : List String) :
    (∃ e, run_action env a ms = Except.error e) ∨
      (∃ s, run_action env a ms = Except.ok [s]) := by
  cases a
  · exact except_two_step (py_get ms 0) (get_president_name env)
  · exact except_two_step (py_get ms 0) (get_president_term env)
  · exact except_two_step (py_get ms 0) (get_president_party env)
  · exact except_two_step (py_get ms 0) (get_president_birth env)
  · exact except_two_step (py_get ms 0) (get_president_predecessor env)
  · exact except_two_step (py_get ms 0) (get_president_successor env)

/-- C9: when the first matching template's handler answers with the empty
list, search_pa_list returns the one-element list No-answers; and this
branch is unreachable with the repository's handlers, since each of the
six either raises an exception or returns a list of exactly one string. -/
theorem no_answers_dead_branch (act : QAction → List String → List String)
    (src : List String) (i : Nat) (hi : i < pa_list.length)
    (m : List (List String)) (env : WikiEnv) (a : QAction) (ms : List String)
    (hfirst : ∀ (j : Nat) (hj : j < i),
      match_tokens (pa_list.get ⟨j, Nat.lt_trans hj hi⟩).1 src = none)
    (hm : match_tokens (pa_list.get ⟨i, hi⟩).1 src = some m)
    (hempty : act (pa_list.get ⟨i, hi⟩).2 (m.map join_tokens) = []) :
    search_pa_list act src = ["No answers"] ∧
      ((∃ e, run_action env a ms = Except.error e) ∨
        (∃ s, run_action env a ms = Except.ok [s])) := by
  refine ⟨?_, run_action_shape env a ms⟩
  have h := search_pa_go_at act src pa_list i hi m hfirst hm
  rw [hempty, if_pos rfl] at h
  exact h

/-- C9 (witness): a handler stub returning the empty list on the matching
query who is the president of france produces No answers, and the name
handler on an empty binding list raises rather than answering. -/
theorem no_answers_dead_branch_witness :
    search_pa_list (fun _ _ => [])
        ["who", "is", "the", "president", "of", "france"] = ["No answers"] ∧
      ((∃ e, run_action env_example QAction.name [] = Except.error e) ∨
        (∃ s, run_action env_example QAction.name [] = Except.ok [s])) :=
  no_answers_dead_branch (fun _ _ => [])
    ["who", "is", "the", "president", "of", "france"] 0 (by decide) [["france"]]
    env_example QAction.name []
    (fun j hj => absurd hj (Nat.not_lt_zero j)) (by decide) rfl

/-- C5: get_match compiles the pattern with DOTALL and IGNORECASE, raises
an AttributeError carrying exactly the caller's error text precisely when
the compiled pattern matches nowhere in the text, and otherwise returns
the match whose captured group becomes the answer. -/
theorem get_match_spec (env : WikiEnv) (text pattern error_text : String) :
    compiled_flags = ⟨true, true⟩ ∧
    (get_match env text pattern error_text =
        Except.error (PyError.attributeError error_text) ↔
      env.research pattern compiled_flags text = none) ∧
    (∀ m, env.research pattern compiled_flags text = some m →
      get_match env text pattern error_text = Except.ok m) := by
  refine ⟨rfl, ?_, ?_⟩
  · cases h : env.research pattern compiled_flags text with
    | none => simp [get_match, h]
    | some m => simp [get_match, h]
  · intro m h
    simp [get_match, h]

/-- C5 (witness): with a concrete oracle that captures Macron, get_match
returns that capture. -/
theorem get_match_spec_witness :
    get_match env_example "text" "pat" "err" = Except.ok "Macron" :=
  (get_match_spec env_example "text" "pat" "err").2.2 "Macron" rfl

/-- C7: get_first_infobox_text raises LookupError "Page has no infobox"
exactly when no element of the page is classified as an infobox, and
otherwise returns the text of the first infobox element. -/
theorem first_infobox_spec (page : List Element) :
    (get_first_infobox_text page =
        Except.error (PyError.lookupError "Page has no infobox") ↔
      ∀ e ∈ page, e.classes.contains "infobox" = false) ∧
    (∀ e, page.find? (fun e => e.classes.contains "infobox") = some e →
      get_first_infobox_text page = Except.ok e.text) := by
  cases h : page.filter (fun e => e.classes.contains "infobox") with
  | nil =>
    have hres : get_first_infobox_text page =
        Except.error (PyError.lookupError "Page has no infobox") := by
      unfold get_first_infobox_text
      rw [h]
    refine ⟨⟨fun _ e he => ?_, fun _ => hres⟩, fun e hfind => ?_⟩
    · have := List.filter_eq_nil_iff.mp h e he
      simpa using this
    · have hps := List.find?_some hfind
      have hmem : e ∈ page.filter (fun e => e.classes.contains "infobox") :=
        List.mem_filter.mpr ⟨List.mem_of_find?_eq_some hfind, hps⟩
      rw [h] at hmem
      exact absurd hmem (List.not_mem_nil e)
  | cons e0 rest =>
    have hres : get_first_infobox_text page = Except.ok e0.text := by
      unfold get_first_infobox_text
      rw [h]
    refine ⟨⟨fun habs => ?_, fun hall => ?_⟩, fun e hfind => ?_⟩
    · rw [hres] at habs
      exact absurd habs (by simp)
    · have hmem : e0 ∈ page.filter (fun e => e.classes.contains "infobox") := by
        rw [h]
        exact List.mem_cons_self e0 rest
      have hp := List.mem_filter.mp hmem
      have := hall e0 hp.1
      rw [this] at hp
      exact absurd hp.2 (by simp)
    · have hh := List.filter_head? (fun e => e.classes.contains "infobox") page
      rw [h, hfind] at hh
      have he : e0 = e := by simpa using hh
      rw [hres, he]

/-- C7 (witness): on a one-element page whose element carries the infobox
class, the first infobox's text is returned. -/
theorem first_infobox_spec_witness :
    get_first_infobox_text [Element.mk ["infobox"] "T"] = Except.ok "T" :=
  (first_infobox_spec [Element.mk ["infobox"] "T"]).2 (Element.mk ["infobox"] "T") rfl

/-- C8: when the search yields zero results, every one of the six
extractors fails with the IndexError raised while indexing the first
search result — whatever the page fetcher, the HTML parser and the regex
oracle do — so the failure happens during page resolution, before the
infobox is located, before cleaning and before any regex is attempted. -/
theorem zero_results_fail_fast (env : WikiEnv) (country : String)
    (h : env.search country = []) :
    get_president_name env country = Except.error PyError.indexError ∧
    get_president_term env country = Except.error PyError.indexError ∧
    get_president_party env country = Except.error PyError.indexError ∧
    get_president_birth env country = Except.error PyError.indexError ∧
    get_president_predecessor env country = Except.error PyError.indexError ∧
    get_president_successor env country = Except.error PyError.indexError := by
  have hpage : get_page_html env country = Except.error PyError.indexError := by
    unfold get_page_html
    rw [h]
  refine ⟨?_, ?_, ?_, ?_, ?_, ?_⟩ <;>
    simp [get_president_name, get_president_term, get_president_party,
      get_president_birth, get_president_predecessor, get_president_successor,
      hpage, Except.bind] <;> rfl

/-- C8 (witness): with a concrete environment whose search finds nothing,
all six extractors report IndexError. -/
theorem zero_results_fail_fast_witness :
    get_president_name env_no_results "france" = Except.error PyError.indexError ∧
    get_president_term env_no_results "france" = Except.error PyError.indexError ∧
    get_president_party env_no_results "france" = Except.error PyError.indexError ∧
    get_president_birth env_no_results "france" = Except.error PyError.indexError ∧
    get_president_predecessor env_no_results "france" =
        Except.error PyError.indexError ∧
    get_president_successor env_no_results "france" =
        Except.error PyError.indexError :=
  zero_results_fail_fast env_no_results "france" rfl

lemma match_born_at_none (c : Char) (xs : List Char) (hc : ci_eq c 'b' = false) :
    match_born_at (c :: xs) = none := by
  cases xs with
  | nil => rfl
  | cons c2 xs2 =>
    cases xs2 with
    | nil => rfl
    | cons c3 xs3 =>
      cases xs3 with
      | nil => rfl
      | cons c4 rest => simp [match_born_at, hc]

lemma search_born_append (l r : List Char) (h : ∀ c ∈ l, c.toLower ≠ 'b') :
    search_born (l ++ r) = search_born r := by
  induction l with
  | nil => rfl
  | cons c l' ih =>
    have hc : ci_eq c 'b' = false := by
      unfold ci_eq
      rw [show 'b'.toLower = 'b' from by decide]
      exact beq_eq_false_iff_ne.mpr (h c (List.mem_cons_self c l'))
    rw [List.cons_append, search_born, match_born_at_none c _ hc]
    exact ih (fun x hx => h x (List.mem_cons_of_mem c hx))

lemma search_born_concrete (post : List Char) :
    search_born ('B' :: 'o' :: 'r' :: 'n' :: ' ' :: '1' :: '9' :: '8' :: '0' ::
        '-' :: '0' :: '5' :: '-' :: '1' :: '2' :: post) =
      some ['1', '9', '8', '0', '-', '0', '5', '-', '1', '2'] := rfl

lemma match_born_at_parts (l d : List Char) (h : match_born_at l = some d) :
    born_at l = true ∧
      date_at ((l.drop 4).dropWhile (fun c => !c.isDigit)) = some d := by
  cases l with
  | nil => exact absurd h (by simp [match_born_at])
  | cons c1 t1 =>
    cases t1 with
    | nil => exact absurd h (by simp [match_born_at])
    | cons c2 t2 =>
      cases t2 with
      | nil => exact absurd h (by simp [match_born_at])
      | cons c3 t3 =>
        cases t3 with
        | nil => exact absurd h (by simp [match_born_at])
        | cons c4 rest =>
          rw [match_born_at] at h
          by_cases hcond :
              (ci_eq c1 'b' && ci_eq c2 'o' && ci_eq c3 'r' && ci_eq c4 'n') = true
          · rw [if_pos hcond] at h
            exact ⟨hcond, h⟩
          · rw [if_neg hcond] at h
            exact absurd h (by simp)

lemma search_born_has_date (l d : List Char) (h : search_born l = some d) :
    has_born_date l = true := by
  induction l with
  | nil => exact absurd h (by simp [search_born])
  | cons c rest ih =>
    rw [search_born] at h
    cases hm : match_born_at (c :: rest) with
    | some d' =>
      obtain ⟨hborn, hdate⟩ := match_born_at_parts (c :: rest) d' hm
      unfold has_born_date
      rw [List.any_eq_true]
      refine ⟨c :: rest, (List.mem_tails _ _).mpr (List.suffix_refl _), ?_⟩
      rw [Bool.and_eq_true, List.any_eq_true]
      refine ⟨hborn, ((c :: rest).drop 4).dropWhile (fun c => !c.isDigit), ?_, ?_⟩
      · exact (List.mem_tails _ _).mpr (List.dropWhile_suffix _)
      · rw [hdate]
        rfl
    | none =>
      rw [hm] at h
      have hrest := ih h
      unfold has_born_date at hrest ⊢
      rw [show (c :: rest).tails = (c :: rest) :: rest.tails from rfl, List.any_cons,
        Bool.or_eq_true]
      exact Or.inr hrest

/-- C6 (amended): on a cleaned infobox text consisting of any prefix with
no letter b (so that no earlier occurrence of the pattern exists),
"Born 1980-05-12", and anything after it, the birth extraction returns
"1980-05-12"; and any text with no YYYY-MM-DD-shaped date after an
occurrence of born (case-insensitive) makes the extraction raise the
birth-missing error. -/
theorem birth_extraction (pre post text : String)
    (h1 : ∀ c ∈ pre.data, ¬(c.toLower = 'b'))
    (h2 : has_born_date text.data = false) :
    extract_birth (pre ++ "Born 1980-05-12" ++ post) = Except.ok "1980-05-12" ∧
      extract_birth text = Except.error (PyError.attributeError birth_error_text) := by
  constructor
  · unfold extract_birth
    have h0 : (pre ++ "Born 1980-05-12" ++ post).data =
        (pre.data ++ "Born 1980-05-12".data) ++ post.data := rfl
    have h3 : "Born 1980-05-12".data ++ post.data =
        'B' :: 'o' :: 'r' :: 'n' :: ' ' :: '1' :: '9' :: '8' :: '0' ::
          '-' :: '0' :: '5' :: '-' :: '1' :: '2' :: post.data := rfl
    rw [h0, List.append_assoc, search_born_append _ _ h1, h3, search_born_concrete]
  · cases hs : search_born text.data with
    | some d =>
      rw [search_born_has_date text.data d hs] at h2
      exact absurd h2 (by simp)
    | none =>
      unfold extract_birth
      rw [hs]

/-- C6 (witness): on the text Born 1980-05-12 itself the extraction
returns 1980-05-12, and on a text with no date the birth-missing error is
raised. -/
theorem birth_extraction_witness :
    extract_birth ("" ++ "Born 1980-05-12" ++ "") = Except.ok "1980-05-12" ∧
      extract_birth "no date here" =
        Except.error (PyError.attributeError birth_error_text) :=
  birth_extraction "" "" "no date here" (by decide) (by decide)

/-- C6 (counterexample to the claim as stated): a text containing
"Born 1980-05-12" whose extraction nevertheless returns the earlier date
1111-11-11, because re.search returns the first match. -/
theorem birth_extraction_counterexample :
    occurs_in "Born 1980-05-12".data "Born 1111-11-11 Born 1980-05-12".data = true ∧
      extract_birth "Born 1111-11-11 Born 1980-05-12" = Except.ok "1111-11-11" ∧
      extract_birth "Born 1111-11-11 Born 1980-05-12" ≠ Except.ok "1980-05-12" := by
  refine ⟨by decide, rfl, ?_⟩
  intro h
  rw [show extract_birth "Born 1111-11-11 Born 1980-05-12" =
      Except.ok "1111-11-11" from rfl] at h
  have : ("1111-11-11" : String) = "1980-05-12" := by injection h
  exact absurd this (by decide)
